import Mathlib

/-!
Formal model of the DLMS/TLV decoder for a Tibber Pulse (Kaifa meter)
Home Assistant integration, translated from
`custom_components/tibber_pulse_local/decoder.py`.

Modelling conventions: bytes are natural numbers, byte strings are
`List Nat`, Python text strings are lists of Unicode code points
(`List Nat`), Python floats produced by dividing small integers are
exact rationals (`ℚ`), and the Python result dict with its fixed key
vocabulary is a structure whose `Option` / list fields model key
presence (a `none` or empty list field is an absent key).
-/

/-- Code points of a Lean string literal; used to state expected text values. -/
def codesOf (s : String) : List Nat := s.data.map Char.toNat

/-- First-some choice on options: `orO a b` is `a` when `a` is `some`, else `b`. -/
def orO (a b : Option (List Nat)) : Option (List Nat) :=
  match a with
  | some x => some x
  | none => b

/-- Big-endian value of a byte list; models `struct.unpack` of `>I` / `>H`
applied to the exact slice. -/
def beVal (l : List Nat) : Nat := l.foldl (fun acc b => acc * 256 + b) 0

/-- Is `b` a UTF-8 continuation byte (`0x80 ≤ b ≤ 0xBF`)? -/
def isCont (b : Nat) : Bool := 0x80 ≤ b && b ≤ 0xBF

/-- Step-counted worker for UTF-8 decoding with the `ignore` error
handler. Every step consumes at least one input byte, so a counter
equal to the input length never runs out; the counter only makes the
recursion structural. -/
def utf8DecodeIgnoreGo : Nat → List Nat → List Nat
  | 0, _ => []
  | _ + 1, [] => []
  | n + 1, b :: rest =>
    if b ≤ 0x7F then b :: utf8DecodeIgnoreGo n rest
    else if 0xC2 ≤ b && b ≤ 0xDF then
      match rest with
      | [] => []
      | b1 :: rest1 =>
        if isCont b1 then ((b - 0xC0) * 0x40 + (b1 - 0x80)) :: utf8DecodeIgnoreGo n rest1
        else utf8DecodeIgnoreGo n (b1 :: rest1)
    else if 0xE0 ≤ b && b ≤ 0xEF then
      match rest with
      | [] => []
      | b1 :: rest1 =>
        if (if b = 0xE0 then 0xA0 else 0x80) ≤ b1 && b1 ≤ (if b = 0xED then 0x9F else 0xBF) then
          match rest1 with
          | [] => []
          | b2 :: rest2 =>
            if isCont b2 then
              ((b - 0xE0) * 0x1000 + (b1 - 0x80) * 0x40 + (b2 - 0x80)) :: utf8DecodeIgnoreGo n rest2
            else utf8DecodeIgnoreGo n (b2 :: rest2)
        else utf8DecodeIgnoreGo n (b1 :: rest1)
    else if 0xF0 ≤ b && b ≤ 0xF4 then
      match rest with
      | [] => []
      | b1 :: rest1 =>
        if (if b = 0xF0 then 0x90 else 0x80) ≤ b1 && b1 ≤ (if b = 0xF4 then 0x8F else 0xBF) then
          match rest1 with
          | [] => []
          | b2 :: rest2 =>
            if isCont b2 then
              match rest2 with
              | [] => []
              | b3 :: rest3 =>
                if isCont b3 then
                  ((b - 0xF0) * 0x40000 + (b1 - 0x80) * 0x1000 + (b2 - 0x80) * 0x40 + (b3 - 0x80))
                    :: utf8DecodeIgnoreGo n rest3
                else utf8DecodeIgnoreGo n (b3 :: rest3)
            else utf8DecodeIgnoreGo n (b2 :: rest2)
        else utf8DecodeIgnoreGo n (b1 :: rest1)
    else utf8DecodeIgnoreGo n rest

/-- UTF-8 decoding with the `ignore` error handler, as in Python
`bytes.decode(errors="ignore")`: well-formed sequences become code
points, invalid sequences are skipped (the maximal valid subpart of an
ill-formed sequence is consumed together with nothing emitted). -/
def utf8DecodeIgnore (l : List Nat) : List Nat := utf8DecodeIgnoreGo l.length l

/-- Remove leading NUL code points. -/
def stripNulLeading (l : List Nat) : List Nat := l.dropWhile (fun c => c == 0)

/-- Remove leading and trailing NUL code points; models Python
`str.strip("\x00")`, which strips from both ends. -/
def stripNulBoth (l : List Nat) : List Nat :=
  ((stripNulLeading l).reverse.dropWhile (fun c => c == 0)).reverse

/-- Remove only trailing NUL code points. This follows the spec's words
("strip trailing NUL padding") rather than the source, for comparison
with the source's `strip("\x00")`. -/
def stripNulTrailingOnly (l : List Nat) : List Nat :=
  (l.reverse.dropWhile (fun c => c == 0)).reverse

/-- Decimal digit code point. -/
def digitCode (n : Nat) : Nat := 48 + n

/-- Two-digit zero-padded decimal rendering (code points). -/
def pad2 (n : Nat) : List Nat := [digitCode (n / 10 % 10), digitCode (n % 10)]

/-- Four-digit zero-padded decimal rendering (code points). -/
def pad4 (n : Nat) : List Nat :=
  [digitCode (n / 1000 % 10), digitCode (n / 100 % 10), digitCode (n / 10 % 10), digitCode (n % 10)]

/-- `datetime(year, month, day, hour, minute).isoformat()` for second = 0:
`YYYY-MM-DDTHH:MM:SS` with the seconds field `00`. -/
def isoFormat (year month day hour minute : Nat) : List Nat :=
  pad4 year ++ [45] ++ pad2 month ++ [45] ++ pad2 day ++ [84] ++
    pad2 hour ++ [58] ++ pad2 minute ++ [58, 48, 48]

/-- Gregorian leap-year rule, as used by Python `datetime`. -/
def isLeapYear (y : Nat) : Bool := (y % 4 == 0 && y % 100 != 0) || y % 400 == 0

/-- Days in a month, as validated by the Python `datetime` constructor. -/
def daysInMonth (y m : Nat) : Nat :=
  if m = 2 then (if isLeapYear y then 29 else 28)
  else if m = 4 ∨ m = 6 ∨ m = 9 ∨ m = 11 then 30
  else 31

/-- Translation of `_safe_parse_timestamp`: a 12-byte value starting with
`0x07` yields an ISO timestamp when the extracted fields pass the range
guards. The final `day ≤ daysInMonth` test models the `datetime`
constructor raising `ValueError` (caught by the `except` and turned
into `None`) for a day that does not exist in the month. -/
def safe_parse_timestamp (value : List Nat) : Option (List Nat) :=
  if value.length = 12 ∧ value.getD 0 0 = 0x07 then
    let year := value.getD 1 0 * 256 + value.getD 2 0
    let month := value.getD 3 0
    let day := value.getD 4 0
    let hour := value.getD 6 0
    let minute := value.getD 7 0
    if 1970 ≤ year ∧ year ≤ 2100 then
      if 1 ≤ month ∧ month ≤ 12 ∧ 1 ≤ day ∧ day ≤ 31 ∧ hour ≤ 23 ∧ minute ≤ 59 then
        if day ≤ daysInMonth year month then some (isoFormat year month day hour minute)
        else none
      else none
    else none
  else none

/-- Translation of `unescape_hdlc`: `0x7D` followed by another byte is
replaced by that byte XOR `0x20`; a trailing lone `0x7D` is emitted
literally. -/
def unescape_hdlc : List Nat → List Nat
  | [] => []
  | b :: rest =>
    if b = 0x7D then
      match rest with
      | b1 :: rest1 => (b1 ^^^ 0x20) :: unescape_hdlc rest1
      | [] => [b]
    else b :: unescape_hdlc rest

/-- The mutable state of one `parse_tlv` call: the `result` dict entries
written during the walk, plus the `u32_values` accumulator. -/
structure ParseState where
  timestamp : Option (List Nat) := none
  strings : List (List Nat) := []
  meter_id : Option (List Nat) := none
  meter_model : Option (List Nat) := none
  u16_values : List Nat := []
  u32_values : List Nat := []
  deriving DecidableEq

/-- The initial (empty) parse state. -/
def initState : ParseState := {}

/-- The octet-string classification block of `parse_tlv` (the body of the
`tag == 0x09` branch after the value has been sliced). -/
def classifyOctet (value : List Nat) (st : ParseState) : ParseState :=
  match safe_parse_timestamp value with
  | some ts => { st with timestamp := some ts }
  | none =>
    if value.length = 7 then { st with strings := st.strings ++ [utf8DecodeIgnore value] }
    else if value.length = 16 then
      { st with meter_id := some (stripNulBoth (utf8DecodeIgnore value)) }
    else if value.length = 8 then { st with meter_model := some (utf8DecodeIgnore value) }
    else st

/-- Step-counted worker for the `while` loop of `parse_tlv`. Every
iteration consumes at least one byte of the buffer, so a step counter
equal to the buffer length never runs out; it only makes the recursion
structural. `parseLoop_eq` below certifies the loop's recurrence. -/
def parseLoopGo : Nat → List Nat → ParseState → ParseState
  | 0, _, st => st
  | _ + 1, [], st => st
  | n + 1, tag :: rest, st =>
    if tag = 0x02 then
      match rest with
      | [] => st
      | _ :: rest2 => parseLoopGo n rest2 st
    else if tag = 0x09 then
      match rest with
      | [] => st
      | len :: rest2 =>
        if rest2.length < len then st
        else parseLoopGo n (rest2.drop len) (classifyOctet (rest2.take len) st)
    else if tag = 0x06 then
      if rest.length < 4 then st
      else parseLoopGo n (rest.drop 4) { st with u32_values := st.u32_values ++ [beVal (rest.take 4)] }
    else if tag = 0x10 then
      if rest.length < 2 then st
      else parseLoopGo n (rest.drop 2) { st with u16_values := st.u16_values ++ [beVal (rest.take 2)] }
    else if tag = 0x0F ∨ tag = 0x11 then
      match rest with
      | [] => st
      | _ :: rest2 => parseLoopGo n rest2 st
    else st

/-- The `while` loop of `parse_tlv`: walk the buffer tag by tag,
accumulating state, halting on truncation or an unknown tag. -/
def parseLoop (p : List Nat) (st : ParseState) : ParseState :=
  parseLoopGo p.length p st

/-- The decoded-fields dict returned by `parse_tlv` /
`decode_tibber_pulse_message`. -/
structure DecodedFields where
  timestamp : Option (List Nat) := none
  strings : List (List Nat) := []
  meter_id : Option (List Nat) := none
  meter_model : Option (List Nat) := none
  u16_values : List Nat := []
  active_power_import : Option Nat := none
  current_l1 : Option ℚ := none
  current_l2 : Option ℚ := none
  current_l3 : Option ℚ := none
  voltage_l1 : Option ℚ := none
  voltage_l2 : Option ℚ := none
  voltage_l3 : Option ℚ := none
  active_import_total : Option ℚ := none
  deriving DecidableEq

/-- The empty result dict. -/
def DecodedFields.empty : DecodedFields := {}

/-- Dict truthiness: the result dict is empty iff no key was ever set. -/
def DecodedFields.isEmpty (d : DecodedFields) : Bool :=
  d.timestamp.isNone && d.strings.isEmpty && d.meter_id.isNone && d.meter_model.isNone &&
    d.u16_values.isEmpty && d.active_power_import.isNone && d.current_l1.isNone &&
    d.current_l2.isNone && d.current_l3.isNone && d.voltage_l1.isNone && d.voltage_l2.isNone &&
    d.voltage_l3.isNone && d.active_import_total.isNone

/-- The mapping-heuristics tail of `parse_tlv` ("Mapping heuristics based
on your payload order"): first u32 becomes `active_power_import`, the
last nine u32s drive phase currents and voltages, and the first u32
above 100000 becomes `active_import_total`. -/
def applyHeuristics (st : ParseState) : DecodedFields :=
  let base : DecodedFields :=
    { timestamp := st.timestamp, strings := st.strings, meter_id := st.meter_id,
      meter_model := st.meter_model, u16_values := st.u16_values }
  let r1 :=
    match st.u32_values with
    | [] => base
    | v :: _ => { base with active_power_import := some v }
  let r2 :=
    if 9 ≤ st.u32_values.length then
      let tail := st.u32_values.drop (st.u32_values.length - 9)
      { r1 with
        current_l1 := some ((tail.getD 3 0 : ℚ) / 1000),
        current_l2 := some ((tail.getD 4 0 : ℚ) / 1000),
        current_l3 := some ((tail.getD 5 0 : ℚ) / 1000),
        voltage_l1 := some ((tail.getD 6 0 : ℚ) / 10),
        voltage_l2 := some ((tail.getD 7 0 : ℚ) / 10),
        voltage_l3 := some ((tail.getD 8 0 : ℚ) / 10) }
    else r1
  match st.u32_values.find? (fun v => decide (100000 < v)) with
  | some v => { r2 with active_import_total := some ((v : ℚ) / 1000) }
  | none => r2

/-- Translation of `parse_tlv`: run the walk from the empty state, then
apply the mapping heuristics to the accumulated state. -/
def parse_tlv (payload : List Nat) : DecodedFields :=
  applyHeuristics (parseLoop payload initState)

/-- `bytes.find`: index of the first occurrence of `n` in `h`, if any. -/
def findSub (h n : List Nat) : Option Nat :=
  match h with
  | [] => if n = [] then some 0 else none
  | _ :: t => if n.isPrefixOf h then some 0 else (findSub t n).map (· + 1)

/-- The primary structure anchor `02 0D 09 07`. -/
def primaryAnchor : List Nat := [0x02, 0x0D, 0x09, 0x07]

/-- The fallback timestamp anchor `09 0C 07`. -/
def fallbackAnchor : List Nat := [0x09, 0x0C, 0x07]

/-- The fallback half of `decode_tibber_pulse_message`: look for the
timestamp anchor, parse from it, and keep the result if non-empty. -/
def decodeFallback (data : List Nat) : DecodedFields :=
  match findSub data fallbackAnchor with
  | some j =>
    let decoded := parse_tlv (data.drop j)
    if decoded.isEmpty then DecodedFields.empty else decoded
  | none => DecodedFields.empty

/-- Translation of `decode_tibber_pulse_message`, the public entry point:
empty payload yields an empty dict; otherwise unescape, try the primary
anchor, then the fallback anchor, and default to the empty dict. -/
def decode_tibber_pulse_message (payload : List Nat) : DecodedFields :=
  if payload = [] then DecodedFields.empty
  else
    let data := unescape_hdlc payload
    match findSub data primaryAnchor with
    | some i =>
      let decoded := parse_tlv (data.drop i)
      if decoded.isEmpty then decodeFallback data else decoded
    | none => decodeFallback data

/-- The timestamp a classified octet-string value contributes, if any. -/
def tsOf (v : List Nat) : Option (List Nat) := safe_parse_timestamp v

/-- The `strings` entry a classified octet-string value contributes, if
any (the `elif length == 7` branch). -/
def stringOf (v : List Nat) : Option (List Nat) :=
  if safe_parse_timestamp v = none ∧ v.length = 7 then some (utf8DecodeIgnore v) else none

/-- The `meter_id` a classified octet-string value contributes, if any
(the `elif length == 16` branch). -/
def meterIdOf (v : List Nat) : Option (List Nat) :=
  if safe_parse_timestamp v = none ∧ v.length = 16 then some (stripNulBoth (utf8DecodeIgnore v))
  else none

/-- The `meter_model` a classified octet-string value contributes, if any
(the `elif length == 8` branch). -/
def meterModelOf (v : List Nat) : Option (List Nat) :=
  if safe_parse_timestamp v = none ∧ v.length = 8 then some (utf8DecodeIgnore v) else none

/-- Step-counted worker for `octetEls`, mirroring `parseLoopGo` cursor
movement exactly. -/
def octetElsGo : Nat → List Nat → List (List Nat)
  | 0, _ => []
  | _ + 1, [] => []
  | n + 1, tag :: rest =>
    if tag = 0x02 then
      match rest with
      | [] => []
      | _ :: rest2 => octetElsGo n rest2
    else if tag = 0x09 then
      match rest with
      | [] => []
      | len :: rest2 =>
        if rest2.length < len then []
        else rest2.take len :: octetElsGo n (rest2.drop len)
    else if tag = 0x06 then
      if rest.length < 4 then [] else octetElsGo n (rest.drop 4)
    else if tag = 0x10 then
      if rest.length < 2 then [] else octetElsGo n (rest.drop 2)
    else if tag = 0x0F ∨ tag = 0x11 then
      match rest with
      | [] => []
      | _ :: rest2 => octetElsGo n rest2
    else []

/-- The octet-string values visited by the `parse_tlv` walk, in encounter
order: a specification-level trace of the loop, used to state which
element each dict key ends up holding. -/
def octetEls (p : List Nat) : List (List Nat) := octetElsGo p.length p

/-- Step-counted worker for `u16Els`, mirroring `parseLoopGo` cursor
movement exactly. -/
def u16ElsGo : Nat → List Nat → List Nat
  | 0, _ => []
  | _ + 1, [] => []
  | n + 1, tag :: rest =>
    if tag = 0x02 then
      match rest with
      | [] => []
      | _ :: rest2 => u16ElsGo n rest2
    else if tag = 0x09 then
      match rest with
      | [] => []
      | len :: rest2 =>
        if rest2.length < len then []
        else u16ElsGo n (rest2.drop len)
    else if tag = 0x06 then
      if rest.length < 4 then [] else u16ElsGo n (rest.drop 4)
    else if tag = 0x10 then
      if rest.length < 2 then []
      else beVal (rest.take 2) :: u16ElsGo n (rest.drop 2)
    else if tag = 0x0F ∨ tag = 0x11 then
      match rest with
      | [] => []
      | _ :: rest2 => u16ElsGo n rest2
    else []

/-- The `0x10` (long-unsigned) values visited by the `parse_tlv` walk, in
encounter order. -/
def u16Els (p : List Nat) : List Nat := u16ElsGo p.length p

/-! ### Statement-support abbreviations -/

/-- The `u32_values` accumulated by the walk of `parse_tlv` on `p`. -/
def u32sOf (p : List Nat) : List Nat := (parseLoop p initState).u32_values

/-- The last nine accumulated u32 values (`u32_values[-9:]`), meaningful
when at least nine were accumulated. -/
def tailOf (p : List Nat) : List Nat := (u32sOf p).drop ((u32sOf p).length - 9)

/-- A 16-byte octet-string value with a leading NUL, used to separate the
two NUL-stripping readings. -/
def meterIdCexValue : List Nat :=
  [0x00, 65, 66, 67, 68, 69, 70, 71, 72, 73, 74, 75, 76, 0x00, 0x00, 0x00]

/-- A payload of nine `0x06` elements with values
`500, 500, 500, 10, 20, 30, 2300, 2310, 2320`, exercising the
phase-current and phase-voltage mapping. -/
def phasesPayload : List Nat :=
  [0x06, 0, 0, 1, 244, 0x06, 0, 0, 1, 244, 0x06, 0, 0, 1, 244,
   0x06, 0, 0, 0, 10, 0x06, 0, 0, 0, 20, 0x06, 0, 0, 0, 30,
   0x06, 0, 0, 8, 252, 0x06, 0, 0, 9, 6, 0x06, 0, 0, 9, 16]

/-! ### Loop recurrence -/

theorem parseLoopGo_irrel : ∀ (n m : Nat) (p : List Nat) (st : ParseState),
    p.length ≤ n → p.length ≤ m → parseLoopGo n p st = parseLoopGo m p st := by
  intro n
  induction n with
  | zero =>
    intro m p st hn _
    have hp : p = [] := List.length_eq_zero.mp (Nat.le_zero.mp hn)
    subst hp
    cases m <;> simp [parseLoopGo]
  | succ n ih =>
    intro m p st hn hm
    cases p with
    | nil => cases m <;> simp [parseLoopGo]
    | cons tag rest =>
      cases m with
      | zero => simp at hm
      | succ m =>
        simp only [List.length_cons, Nat.add_le_add_iff_right] at hn hm
        simp only [parseLoopGo]
        by_cases h2 : tag = 0x02
        · simp only [h2, if_true]
          cases rest with
          | nil => rfl
          | cons c rest2 =>
            simp only [List.length_cons] at hn hm
            exact ih m rest2 st (by omega) (by omega)
        · by_cases h9 : tag = 0x09
          · simp only [h2, if_false, h9, if_true]
            cases rest with
            | nil => rfl
            | cons len rest2 =>
              simp only [List.length_cons] at hn hm
              by_cases hb : rest2.length < len
              · simp [hb]
              · simp only [hb, if_false]
                exact ih m (rest2.drop len) _ (by simp only [List.length_drop, List.length_cons]; omega)
                  (by simp only [List.length_drop, List.length_cons]; omega)
          · by_cases h6 : tag = 0x06
            · simp only [h2, if_false, h9, h6, if_true]
              by_cases hb : rest.length < 4
              · simp [hb]
              · simp only [hb, if_false]
                exact ih m (rest.drop 4) _ (by simp only [List.length_drop, List.length_cons]; omega)
                  (by simp only [List.length_drop, List.length_cons]; omega)
            · by_cases h10 : tag = 0x10
              · simp only [h2, if_false, h9, h6, h10, if_true]
                by_cases hb : rest.length < 2
                · simp [hb]
                · simp only [hb, if_false]
                  exact ih m (rest.drop 2) _ (by simp only [List.length_drop, List.length_cons]; omega)
                    (by simp only [List.length_drop, List.length_cons]; omega)
              · by_cases hs : tag = 0x0F ∨ tag = 0x11
                · simp only [h2, if_false, h9, h6, h10, hs, if_true]
                  cases rest with
                  | nil => rfl
                  | cons c rest2 =>
                    simp only [List.length_cons] at hn hm
                    exact ih m rest2 st (by omega) (by omega)
                · simp [h2, h9, h6, h10, hs]

/-- The recurrence of the source's `while` loop, certified for
`parseLoop`: this is exactly the case analysis of `parse_tlv`'s loop
body in `decoder.py`. -/
theorem parseLoop_eq (p : List Nat) (st : ParseState) :
    parseLoop p st =
      match p with
      | [] => st
      | tag :: rest =>
        if tag = 0x02 then
          match rest with
          | [] => st
          | _ :: rest2 => parseLoop rest2 st
        else if tag = 0x09 then
          match rest with
          | [] => st
          | len :: rest2 =>
            if rest2.length < len then st
            else parseLoop (rest2.drop len) (classifyOctet (rest2.take len) st)
        else if tag = 0x06 then
          if rest.length < 4 then st
          else parseLoop (rest.drop 4) { st with u32_values := st.u32_values ++ [beVal (rest.take 4)] }
        else if tag = 0x10 then
          if rest.length < 2 then st
          else parseLoop (rest.drop 2) { st with u16_values := st.u16_values ++ [beVal (rest.take 2)] }
        else if tag = 0x0F ∨ tag = 0x11 then
          match rest with
          | [] => st
          | _ :: rest2 => parseLoop rest2 st
        else st := by
  cases p with
  | nil => rfl
  | cons tag rest =>
    by_cases h2 : tag = 0x02
    · cases rest with
      | nil => simp [parseLoop, parseLoopGo, h2]
      | cons c rest2 =>
        simp only [parseLoop, List.length_cons, parseLoopGo, h2, if_true]
        exact parseLoopGo_irrel _ _ _ _ (by omega) (le_refl _)
    · by_cases h9 : tag = 0x09
      · cases rest with
        | nil => simp [parseLoop, parseLoopGo, h2, h9]
        | cons len rest2 =>
          by_cases hb : rest2.length < len
          · simp [parseLoop, parseLoopGo, h2, h9, hb]
          · simp only [parseLoop, List.length_cons, parseLoopGo, h2, h9, hb, if_true, if_false]
            exact parseLoopGo_irrel _ _ _ _ (by simp only [List.length_drop, List.length_cons]; omega) (le_refl _)
      · by_cases h6 : tag = 0x06
        · by_cases hb : rest.length < 4
          · simp [parseLoop, parseLoopGo, h2, h9, h6, hb]
          · simp only [parseLoop, List.length_cons, parseLoopGo, h2, h9, h6, hb, if_true, if_false]
            exact parseLoopGo_irrel _ _ _ _ (by simp only [List.length_drop, List.length_cons]; omega) (le_refl _)
        · by_cases h10 : tag = 0x10
          · by_cases hb : rest.length < 2
            · simp [parseLoop, parseLoopGo, h2, h9, h6, h10, hb]
            · simp only [parseLoop, List.length_cons, parseLoopGo, h2, h9, h6, h10, hb, if_true,
                if_false]
              exact parseLoopGo_irrel _ _ _ _ (by simp only [List.length_drop, List.length_cons]; omega) (le_refl _)
          · by_cases hs : tag = 0x0F ∨ tag = 0x11
            · cases rest with
              | nil => simp [parseLoop, parseLoopGo, h2, h9, h6, h10, hs]
              | cons c rest2 =>
                simp only [parseLoop, List.length_cons, parseLoopGo, h2, h9, h6, h10, hs, if_true,
                  if_false]
                exact parseLoopGo_irrel _ _ _ _ (by omega) (le_refl _)
            · simp [parseLoop, parseLoopGo, h2, h9, h6, h10, hs]

/-! ### Option and trace algebra -/

theorem orO_none_left (b : Option (List Nat)) : orO none b = b := rfl

theorem orO_some_left (x : List Nat) (b : Option (List Nat)) : orO (some x) b = some x := rfl

theorem orO_none_right (a : Option (List Nat)) : orO a none = a := by
  cases a <;> rfl

theorem orO_orO_some (a : Option (List Nat)) (x : List Nat) (c : Option (List Nat)) :
    orO (orO a (some x)) c = orO a (some x) := by
  cases a <;> rfl

theorem getLast?_cons_orO (x : List Nat) (l : List (List Nat)) :
    (x :: l).getLast? = orO l.getLast? (some x) := by
  induction l generalizing x with
  | nil => rfl
  | cons y t ih =>
    rw [List.getLast?_cons_cons, ih y]
    cases ht : t.getLast? <;> rfl

theorem lastQ_filterMap_cons (f : List Nat → Option (List Nat)) (v : List Nat)
    (els : List (List Nat)) (c : Option (List Nat)) :
    orO ((List.filterMap f (v :: els)).getLast?) c
      = orO ((List.filterMap f els).getLast?) (orO (f v) c) := by
  cases hfv : f v with
  | none => simp [List.filterMap_cons, hfv, orO_none_left]
  | some x =>
    simp only [List.filterMap_cons, hfv]
    rw [getLast?_cons_orO, orO_orO_some, orO_some_left]

theorem filterMap_cons_toList (f : List Nat → Option (List Nat)) (v : List Nat)
    (els : List (List Nat)) :
    List.filterMap f (v :: els) = (f v).toList ++ List.filterMap f els := by
  cases hfv : f v <;> simp [List.filterMap_cons, hfv]

/-- Field-by-field description of one octet-string classification step:
single-valued keys are overwritten exactly when the value qualifies,
`strings` appends exactly when the value qualifies, and `u16_values`
and `u32_values` are untouched. -/
theorem classifyOctet_fields (v : List Nat) (st : ParseState) :
    (classifyOctet v st).timestamp = orO (tsOf v) st.timestamp ∧
    (classifyOctet v st).strings = st.strings ++ (stringOf v).toList ∧
    (classifyOctet v st).meter_id = orO (meterIdOf v) st.meter_id ∧
    (classifyOctet v st).meter_model = orO (meterModelOf v) st.meter_model ∧
    (classifyOctet v st).u16_values = st.u16_values ∧
    (classifyOctet v st).u32_values = st.u32_values := by
  cases hts : safe_parse_timestamp v with
  | some ts => simp [classifyOctet, tsOf, stringOf, meterIdOf, meterModelOf, hts, orO]
  | none =>
    by_cases h7 : v.length = 7
    · simp [classifyOctet, tsOf, stringOf, meterIdOf, meterModelOf, hts, h7, orO]
    · by_cases h16 : v.length = 16
      · simp [classifyOctet, tsOf, stringOf, meterIdOf, meterModelOf, hts, h7, h16, orO]
      · by_cases h8 : v.length = 8
        · simp [classifyOctet, tsOf, stringOf, meterIdOf, meterModelOf, hts, h7, h16, h8, orO]
        · simp [classifyOctet, tsOf, stringOf, meterIdOf, meterModelOf, hts, h7, h16, h8, orO]

/-! ### Branch equations of the step-counted walkers -/

theorem stepGo_struct (n c : Nat) (r : List Nat) (st : ParseState) :
    parseLoopGo (n + 1) (0x02 :: c :: r) st = parseLoopGo n r st ∧
    octetElsGo (n + 1) (0x02 :: c :: r) = octetElsGo n r ∧
    u16ElsGo (n + 1) (0x02 :: c :: r) = u16ElsGo n r := by
  refine ⟨?_, ?_, ?_⟩ <;> simp [parseLoopGo, octetElsGo, u16ElsGo]

theorem stepGo_octet (n len : Nat) (r : List Nat) (st : ParseState) (hb : ¬ r.length < len) :
    parseLoopGo (n + 1) (0x09 :: len :: r) st
      = parseLoopGo n (r.drop len) (classifyOctet (r.take len) st) ∧
    octetElsGo (n + 1) (0x09 :: len :: r) = r.take len :: octetElsGo n (r.drop len) ∧
    u16ElsGo (n + 1) (0x09 :: len :: r) = u16ElsGo n (r.drop len) := by
  refine ⟨?_, ?_, ?_⟩ <;> simp [parseLoopGo, octetElsGo, u16ElsGo, hb]

theorem stepGo_u32 (n : Nat) (r : List Nat) (st : ParseState) (hb : ¬ r.length < 4) :
    parseLoopGo (n + 1) (0x06 :: r) st
      = parseLoopGo n (r.drop 4) { st with u32_values := st.u32_values ++ [beVal (r.take 4)] } ∧
    octetElsGo (n + 1) (0x06 :: r) = octetElsGo n (r.drop 4) ∧
    u16ElsGo (n + 1) (0x06 :: r) = u16ElsGo n (r.drop 4) := by
  refine ⟨?_, ?_, ?_⟩ <;> simp [parseLoopGo, octetElsGo, u16ElsGo, hb]

theorem stepGo_u16 (n : Nat) (r : List Nat) (st : ParseState) (hb : ¬ r.length < 2) :
    parseLoopGo (n + 1) (0x10 :: r) st
      = parseLoopGo n (r.drop 2) { st with u16_values := st.u16_values ++ [beVal (r.take 2)] } ∧
    octetElsGo (n + 1) (0x10 :: r) = octetElsGo n (r.drop 2) ∧
    u16ElsGo (n + 1) (0x10 :: r) = beVal (r.take 2) :: u16ElsGo n (r.drop 2) := by
  refine ⟨?_, ?_, ?_⟩ <;> simp [parseLoopGo, octetElsGo, u16ElsGo, hb]

theorem stepGo_small (n tag c : Nat) (r : List Nat) (st : ParseState)
    (hs : tag = 0x0F ∨ tag = 0x11) :
    parseLoopGo (n + 1) (tag :: c :: r) st = parseLoopGo n r st ∧
    octetElsGo (n + 1) (tag :: c :: r) = octetElsGo n r ∧
    u16ElsGo (n + 1) (tag :: c :: r) = u16ElsGo n r := by
  rcases hs with h | h <;> subst h <;>
    exact ⟨by simp [parseLoopGo], by simp [octetElsGo], by simp [u16ElsGo]⟩

/-- Trace description of the step-counted loop: the single-valued keys
hold the last qualifying octet string's contribution, `strings` and
`u16_values` accumulate every qualifying value in encounter order. -/
theorem traceGo : ∀ (n : Nat) (p : List Nat) (st : ParseState),
    (parseLoopGo n p st).timestamp = orO ((octetElsGo n p).filterMap tsOf).getLast? st.timestamp ∧
    (parseLoopGo n p st).meter_id = orO ((octetElsGo n p).filterMap meterIdOf).getLast? st.meter_id ∧
    (parseLoopGo n p st).meter_model
      = orO ((octetElsGo n p).filterMap meterModelOf).getLast? st.meter_model ∧
    (parseLoopGo n p st).strings = st.strings ++ (octetElsGo n p).filterMap stringOf ∧
    (parseLoopGo n p st).u16_values = st.u16_values ++ u16ElsGo n p := by
  intro n
  induction n with
  | zero => intro p st; simp [parseLoopGo, octetElsGo, u16ElsGo, orO]
  | succ n ih =>
    intro p st
    cases p with
    | nil => simp [parseLoopGo, octetElsGo, u16ElsGo, orO]
    | cons tag rest =>
      by_cases h2 : tag = 0x02
      · subst h2
        cases rest with
        | nil => simp [parseLoopGo, octetElsGo, u16ElsGo, orO]
        | cons c rest2 =>
          obtain ⟨e1, e2, e3⟩ := stepGo_struct n c rest2 st
          rw [e1, e2, e3]
          exact ih rest2 st
      · by_cases h9 : tag = 0x09
        · subst h9
          cases rest with
          | nil => simp [parseLoopGo, octetElsGo, u16ElsGo, orO]
          | cons len rest2 =>
            by_cases hb : rest2.length < len
            · simp [parseLoopGo, octetElsGo, u16ElsGo, orO, hb]
            · obtain ⟨e1, e2, e3⟩ := stepGo_octet n len rest2 st hb
              rw [e1, e2, e3]
              obtain ⟨it, im, imm, is, iu⟩ :=
                ih (rest2.drop len) (classifyOctet (rest2.take len) st)
              obtain ⟨ct, cs, cm, cmm, cu16, _⟩ := classifyOctet_fields (rest2.take len) st
              refine ⟨?_, ?_, ?_, ?_, ?_⟩
              · rw [it, ct, lastQ_filterMap_cons]
              · rw [im, cm, lastQ_filterMap_cons]
              · rw [imm, cmm, lastQ_filterMap_cons]
              · rw [is, cs]; simp [filterMap_cons_toList, List.append_assoc]
              · rw [iu, cu16]
        · by_cases h6 : tag = 0x06
          · subst h6
            by_cases hb : rest.length < 4
            · simp [parseLoopGo, octetElsGo, u16ElsGo, orO, hb]
            · obtain ⟨e1, e2, e3⟩ := stepGo_u32 n rest st hb
              rw [e1, e2, e3]
              exact ih (rest.drop 4) { st with u32_values := st.u32_values ++ [beVal (rest.take 4)] }
          · by_cases h10 : tag = 0x10
            · subst h10
              by_cases hb : rest.length < 2
              · simp [parseLoopGo, octetElsGo, u16ElsGo, orO, hb]
              · obtain ⟨e1, e2, e3⟩ := stepGo_u16 n rest st hb
                rw [e1, e2, e3]
                obtain ⟨it, im, imm, is, iu⟩ := ih (rest.drop 2)
                  { st with u16_values := st.u16_values ++ [beVal (rest.take 2)] }
                refine ⟨it, im, imm, is, ?_⟩
                rw [iu]
                simp [List.append_assoc]
            · by_cases hs : tag = 0x0F ∨ tag = 0x11
              · cases rest with
                | nil =>
                  rcases hs with h | h <;> subst h <;>
                    simp [parseLoopGo, octetElsGo, u16ElsGo, orO]
                | cons c rest2 =>
                  obtain ⟨e1, e2, e3⟩ := stepGo_small n tag c rest2 st hs
                  rw [e1, e2, e3]
                  exact ih rest2 st
              · simp [parseLoopGo, octetElsGo, u16ElsGo, orO, h2, h9, h6, h10, hs]

/-- Trace description of `parseLoop` itself. -/
theorem parseLoop_trace (p : List Nat) (st : ParseState) :
    (parseLoop p st).timestamp = orO ((octetEls p).filterMap tsOf).getLast? st.timestamp ∧
    (parseLoop p st).meter_id = orO ((octetEls p).filterMap meterIdOf).getLast? st.meter_id ∧
    (parseLoop p st).meter_model
      = orO ((octetEls p).filterMap meterModelOf).getLast? st.meter_model ∧
    (parseLoop p st).strings = st.strings ++ (octetEls p).filterMap stringOf ∧
    (parseLoop p st).u16_values = st.u16_values ++ u16Els p :=
  traceGo p.length p st

/-! ### The mapping-heuristics phase -/

/-- Field-by-field description of `applyHeuristics`: the octet-derived
keys pass through unchanged, `active_power_import` is the head of
`u32_values`, `active_import_total` is the first value above 100000
divided by 1000, and with at least nine values the last nine drive the
current and voltage keys. -/
theorem applyHeuristics_spec (st : ParseState) :
    (applyHeuristics st).timestamp = st.timestamp ∧
    (applyHeuristics st).strings = st.strings ∧
    (applyHeuristics st).meter_id = st.meter_id ∧
    (applyHeuristics st).meter_model = st.meter_model ∧
    (applyHeuristics st).u16_values = st.u16_values ∧
    (applyHeuristics st).active_power_import = st.u32_values.head? ∧
    (applyHeuristics st).active_import_total
      = (st.u32_values.find? (fun v => decide (100000 < v))).map (fun v => (v : ℚ) / 1000) ∧
    (9 ≤ st.u32_values.length →
      (applyHeuristics st).current_l1
          = some (((st.u32_values.drop (st.u32_values.length - 9)).getD 3 0 : ℚ) / 1000) ∧
      (applyHeuristics st).current_l2
          = some (((st.u32_values.drop (st.u32_values.length - 9)).getD 4 0 : ℚ) / 1000) ∧
      (applyHeuristics st).current_l3
          = some (((st.u32_values.drop (st.u32_values.length - 9)).getD 5 0 : ℚ) / 1000) ∧
      (applyHeuristics st).voltage_l1
          = some (((st.u32_values.drop (st.u32_values.length - 9)).getD 6 0 : ℚ) / 10) ∧
      (applyHeuristics st).voltage_l2
          = some (((st.u32_values.drop (st.u32_values.length - 9)).getD 7 0 : ℚ) / 10) ∧
      (applyHeuristics st).voltage_l3
          = some (((st.u32_values.drop (st.u32_values.length - 9)).getD 8 0 : ℚ) / 10)) := by
  obtain ⟨t, s, mi, mm, u16, u32⟩ := st
  cases u32 with
  | nil => simp [applyHeuristics]
  | cons v vs =>
    by_cases h9 : 9 ≤ (v :: vs).length
    · simp only [List.length_cons] at h9
      have h8 : 8 ≤ vs.length := by omega
      cases hfind : List.find? (fun x => decide (100000 < x)) (v :: vs) with
      | none => simp [applyHeuristics, hfind, h8]
      | some w => simp [applyHeuristics, hfind, h8]
    · simp only [List.length_cons] at h9
      have h8 : ¬ 8 ≤ vs.length := by omega
      cases hfind : List.find? (fun x => decide (100000 < x)) (v :: vs) with
      | none => simp [applyHeuristics, hfind, h8]
      | some w => simp [applyHeuristics, hfind, h8]

/-! ### Claims -/

/-- C1: for every byte sequence — including the empty sequence and
arbitrary noise — `decode_tibber_pulse_message` terminates and returns
a mapping, possibly empty, and never raises past its boundary. The
translation is a total Lean function (no partiality marker), which is
the termination and no-exception content; the theorem records that the
empty payload yields the empty mapping and that every payload yields
some `DecodedFields` value. -/
theorem decode_tibber_pulse_message_total :
    decode_tibber_pulse_message [] = DecodedFields.empty ∧
    ∀ payload : List Nat, ∃ r : DecodedFields, decode_tibber_pulse_message payload = r :=
  ⟨by simp [decode_tibber_pulse_message], fun _ => ⟨_, rfl⟩⟩

/-- C7: `unescape_hdlc` replaces each `0x7D` followed by another byte
with that byte XOR `0x20`, emits a `0x7D` that is the last input byte
literally, leaves all other bytes unchanged; in particular `7D 20`
unescapes to `00` and a lone trailing `7D` to `7D`. -/
theorem unescape_hdlc_spec :
    (∀ b rest, b ≠ 0x7D → unescape_hdlc (b :: rest) = b :: unescape_hdlc rest) ∧
    (∀ b rest, unescape_hdlc (0x7D :: b :: rest) = (b ^^^ 0x20) :: unescape_hdlc rest) ∧
    unescape_hdlc [0x7D] = [0x7D] ∧
    unescape_hdlc [0x7D, 0x20] = [0x00] ∧
    unescape_hdlc [] = [] := by
  refine ⟨?_, ?_, rfl, rfl, rfl⟩
  · intro b rest hb
    rw [unescape_hdlc.eq_def]
    simp [hb]
  · intro b rest
    rfl

/-- C7 witness: the non-escape clause applied at byte `0x41`, and the
escape clause applied at `0x7D 0x20`. -/
theorem unescape_hdlc_spec_witness :
    unescape_hdlc [0x41, 0x7D, 0x20] = [0x41, 0x00] := by
  rw [unescape_hdlc_spec.1 0x41 [0x7D, 0x20] (by decide), unescape_hdlc_spec.2.2.2.1]

/-- C6: a declared element length that exceeds the remaining buffer (for
octet strings and the fixed-width 4-, 2- and 1-byte tags), or a tag
outside `{0x02, 0x09, 0x06, 0x10, 0x0F, 0x11}`, halts the walk at that
point with the state accumulated so far, and `parse_tlv` still maps
that partial state through the heuristics — a partial result, not an
exception. -/
theorem parse_tlv_halts_gracefully :
    (∀ tag rest st, tag ∉ ([0x02, 0x09, 0x06, 0x10, 0x0F, 0x11] : List Nat) →
      parseLoop (tag :: rest) st = st) ∧
    (∀ len rest st, rest.length < len → parseLoop (0x09 :: len :: rest) st = st) ∧
    (∀ rest st, rest.length < 4 → parseLoop (0x06 :: rest) st = st) ∧
    (∀ rest st, rest.length < 2 → parseLoop (0x10 :: rest) st = st) ∧
    (∀ st : ParseState, parseLoop [0x0F] st = st ∧ parseLoop [0x11] st = st) ∧
    (∀ p : List Nat, parse_tlv p = applyHeuristics (parseLoop p initState)) := by
  refine ⟨?_, ?_, ?_, ?_, ?_, fun _ => rfl⟩
  · intro tag rest st h
    simp only [List.mem_cons, List.not_mem_nil, or_false, not_or] at h
    obtain ⟨h2, h9, h6, h10, h15, h17⟩ := h
    rw [parseLoop_eq]
    simp [h2, h9, h6, h10, h15, h17]
  · intro len rest st hb
    rw [parseLoop_eq]
    simp [hb]
  · intro rest st hb
    rw [parseLoop_eq]
    simp [hb]
  · intro rest st hb
    rw [parseLoop_eq]
    simp [hb]
  · intro st
    exact ⟨by rw [parseLoop_eq]; simp, by rw [parseLoop_eq]; simp⟩

/-- C6 witness: an unknown tag `0x00`, a corrupted octet-string length
(200 declared, 1 remaining) after one parsed element, and truncated
fixed-width elements, each halting with the accumulated state. -/
theorem parse_tlv_halts_gracefully_witness :
    parseLoop [0x00, 1, 2, 3] initState = initState ∧
    parseLoop [0x09, 200, 65] (classifyOctet [65, 66, 67, 68, 69, 70, 71] initState)
      = classifyOctet [65, 66, 67, 68, 69, 70, 71] initState ∧
    parseLoop [0x06, 1, 2] initState = initState ∧
    parseLoop [0x10, 1] initState = initState :=
  ⟨parse_tlv_halts_gracefully.1 0x00 [1, 2, 3] initState (by decide),
   parse_tlv_halts_gracefully.2.1 200 [65] _ (by decide),
   parse_tlv_halts_gracefully.2.2.1 [1, 2] initState (by decide),
   parse_tlv_halts_gracefully.2.2.2.1 [1] initState (by decide)⟩

/-- C8 counterexample: on the 16-byte value `00 41 .. 4C 00 00 00` (a
leading NUL, twelve letters, three trailing NULs) `parse_tlv` stores
`meter_id = "ABCDEFGHIJKL"` — the leading NUL is removed as well,
because `str.strip("\x00")` strips both ends — while the claim's
trailing-only stripping would keep the leading NUL. -/
theorem meter_id_strip_counterexample :
    (parse_tlv ([0x09, 16] ++ meterIdCexValue)).meter_id
        = some (stripNulBoth (utf8DecodeIgnore meterIdCexValue)) ∧
    (parse_tlv ([0x09, 16] ++ meterIdCexValue)).meter_id
        ≠ some (stripNulTrailingOnly (utf8DecodeIgnore meterIdCexValue)) ∧
    stripNulBoth (utf8DecodeIgnore meterIdCexValue) = codesOf "ABCDEFGHIJKL" ∧
    stripNulTrailingOnly (utf8DecodeIgnore meterIdCexValue)
        = 0x00 :: codesOf "ABCDEFGHIJKL" := by
  decide

/-- C8 (amended): for every octet-string element of declared length 16
fully contained in the buffer and not classified as a timestamp,
`parse_tlv` stores under `meter_id` the bytes decoded as text with the
leading and trailing NUL padding removed (Python `strip("\x00")`
strips both ends); second conjunct: the walk feeds each in-bounds
octet-string element through this classification step. -/
theorem meter_id_strips_both_ends :
    (∀ value st, value.length = 16 → safe_parse_timestamp value = none →
      (classifyOctet value st).meter_id = some (stripNulBoth (utf8DecodeIgnore value))) ∧
    (∀ len rest st, ¬ rest.length < len →
      parseLoop (0x09 :: len :: rest) st
        = parseLoop (rest.drop len) (classifyOctet (rest.take len) st)) := by
  constructor
  · intro value st hlen hts
    simp [classifyOctet, hts, hlen]
  · intro len rest st hb
    rw [parseLoop_eq]
    simp [hb]

/-- C8 witness: the amended classification applied to the concrete
16-byte value, and the walk-step clause applied to a concrete
two-byte octet string. -/
theorem meter_id_strips_both_ends_witness :
    (classifyOctet meterIdCexValue initState).meter_id
        = some (stripNulBoth (utf8DecodeIgnore meterIdCexValue)) ∧
    parseLoop [0x09, 2, 65, 66, 67] initState
        = parseLoop [67] (classifyOctet [65, 66] initState) :=
  ⟨meter_id_strips_both_ends.1 meterIdCexValue initState (by decide) (by decide),
   meter_id_strips_both_ends.2 2 [65, 66, 67] initState (by decide)⟩

/-- C2 counterexample: on the spec's example bytes
`07 E9 0B 15 01 00 0A 1E 00 00 00 00` the code reads the year from
`value[1:3] = E9 0B`, i.e. 59659, which fails the `1970..2100` guard,
so no timestamp at all is produced — not `2025-11-21T10:30:00`. -/
theorem timestamp_example_counterexample :
    safe_parse_timestamp [0x07, 0xE9, 0x0B, 0x15, 0x01, 0x00, 0x0A, 0x1E, 0, 0, 0, 0] = none ∧
    (parse_tlv ([0x09, 0x0C] ++ [0x07, 0xE9, 0x0B, 0x15, 0x01, 0x00, 0x0A, 0x1E, 0, 0, 0, 0])).timestamp
        = none ∧
    safe_parse_timestamp [0x07, 0xE9, 0x0B, 0x15, 0x01, 0x00, 0x0A, 0x1E, 0, 0, 0, 0]
        ≠ some (codesOf "2025-11-21T10:30:00") := by
  decide

/-- C2 (amended): for the 12-byte octet string
`07 07 E9 0B 15 00 0A 1E 00 00 00 00` — first byte the `0x07` marker,
`bytes[1:3] = 07 E9` the year 2025, `byte[3] = 0B` the month,
`byte[4] = 15` the day, `byte[6] = 0A` the hour, `byte[7] = 1E` the
minute, matching the layout the code reads — the timestamp decoder
(and hence `parse_tlv` on an element carrying it) produces
`2025-11-21T10:30:00`; with the year bytes replaced by `00 01`
(year 1) no timestamp is produced. -/
theorem timestamp_example_amended :
    safe_parse_timestamp [0x07, 0x07, 0xE9, 0x0B, 0x15, 0x00, 0x0A, 0x1E, 0, 0, 0, 0]
        = some (codesOf "2025-11-21T10:30:00") ∧
    (parse_tlv ([0x09, 0x0C] ++ [0x07, 0x07, 0xE9, 0x0B, 0x15, 0x00, 0x0A, 0x1E, 0, 0, 0, 0])).timestamp
        = some (codesOf "2025-11-21T10:30:00") ∧
    safe_parse_timestamp [0x07, 0x00, 0x01, 0x0B, 0x15, 0x00, 0x0A, 0x1E, 0, 0, 0, 0] = none ∧
    (parse_tlv ([0x09, 0x0C] ++ [0x07, 0x00, 0x01, 0x0B, 0x15, 0x00, 0x0A, 0x1E, 0, 0, 0, 0])).timestamp
        = none := by
  decide

/-- C3: `decode_tibber_pulse_message` on an empty payload returns the
empty mapping; otherwise it unescapes, looks for the byte-exact
primary anchor `02 0D 09 07` and returns the fields parsed from it if
any; otherwise looks for the fallback anchor `09 0C 07` and returns
the fields parsed from it if any; and whenever neither attempt yields
fields it returns the empty mapping. -/
theorem decode_algorithm :
    (decode_tibber_pulse_message [] = DecodedFields.empty) ∧
    (∀ p : List Nat, p ≠ [] → ∀ i, findSub (unescape_hdlc p) primaryAnchor = some i →
      (parse_tlv ((unescape_hdlc p).drop i)).isEmpty = false →
      decode_tibber_pulse_message p = parse_tlv ((unescape_hdlc p).drop i)) ∧
    (∀ p : List Nat, p ≠ [] →
      (match findSub (unescape_hdlc p) primaryAnchor with
       | some i => (parse_tlv ((unescape_hdlc p).drop i)).isEmpty = true
       | none => True) →
      ∀ j, findSub (unescape_hdlc p) fallbackAnchor = some j →
      (parse_tlv ((unescape_hdlc p).drop j)).isEmpty = false →
      decode_tibber_pulse_message p = parse_tlv ((unescape_hdlc p).drop j)) ∧
    (∀ p : List Nat,
      (match findSub (unescape_hdlc p) primaryAnchor with
       | some i => (parse_tlv ((unescape_hdlc p).drop i)).isEmpty = true
       | none => True) →
      (match findSub (unescape_hdlc p) fallbackAnchor with
       | some j => (parse_tlv ((unescape_hdlc p).drop j)).isEmpty = true
       | none => True) →
      decode_tibber_pulse_message p = DecodedFields.empty) := by
  refine ⟨by simp [decode_tibber_pulse_message], ?_, ?_, ?_⟩
  · intro p hp i hi hne
    simp [decode_tibber_pulse_message, hp, hi, hne]
  · intro p hp hprim j hj hne
    cases hpi : findSub (unescape_hdlc p) primaryAnchor with
    | none => simp [decode_tibber_pulse_message, decodeFallback, hp, hpi, hj, hne]
    | some i =>
      rw [hpi] at hprim
      simp [decode_tibber_pulse_message, decodeFallback, hp, hpi, hprim, hj, hne]
  · intro p hprim hfb
    by_cases hp : p = []
    · simp [decode_tibber_pulse_message, hp]
    · cases hpi : findSub (unescape_hdlc p) primaryAnchor with
      | none =>
        cases hfj : findSub (unescape_hdlc p) fallbackAnchor with
        | none => simp [decode_tibber_pulse_message, decodeFallback, hp, hpi, hfj]
        | some j =>
          rw [hfj] at hfb
          simp [decode_tibber_pulse_message, decodeFallback, hp, hpi, hfj, hfb]
      | some i =>
        rw [hpi] at hprim
        cases hfj : findSub (unescape_hdlc p) fallbackAnchor with
        | none => simp [decode_tibber_pulse_message, decodeFallback, hp, hpi, hprim, hfj]
        | some j =>
          rw [hfj] at hfb
          simp [decode_tibber_pulse_message, decodeFallback, hp, hpi, hprim, hfj, hfb]

/-- C3 witness: a payload starting with the primary anchor whose parse
yields one string field, so the primary branch returns it. -/
theorem decode_algorithm_witness :
    decode_tibber_pulse_message ([0x02, 0x0D, 0x09, 0x07] ++ [65, 66, 67, 68, 69, 70, 71])
      = parse_tlv ((unescape_hdlc ([0x02, 0x0D, 0x09, 0x07] ++ [65, 66, 67, 68, 69, 70, 71])).drop 0) :=
  decode_algorithm.2.1 ([0x02, 0x0D, 0x09, 0x07] ++ [65, 66, 67, 68, 69, 70, 71]) (by decide) 0
    (by decide) (by decide)

/-- C10: when several octet strings of the same classified kind occur,
`timestamp`, `meter_id` and `meter_model` each hold the contribution
of the last qualifying element of the walk (earlier ones are
overwritten), while `strings` and `u16_values` hold every qualifying
value in encounter order. -/
theorem parse_tlv_last_wins (p : List Nat) :
    (parse_tlv p).timestamp = ((octetEls p).filterMap tsOf).getLast? ∧
    (parse_tlv p).meter_id = ((octetEls p).filterMap meterIdOf).getLast? ∧
    (parse_tlv p).meter_model = ((octetEls p).filterMap meterModelOf).getLast? ∧
    (parse_tlv p).strings = (octetEls p).filterMap stringOf ∧
    (parse_tlv p).u16_values = u16Els p := by
  obtain ⟨ht, hm, hmm, hs, hu⟩ := parseLoop_trace p initState
  obtain ⟨a1, a2, a3, a4, a5, -, -, -⟩ := applyHeuristics_spec (parseLoop p initState)
  rw [show initState.timestamp = none from rfl, orO_none_right] at ht
  rw [show initState.meter_id = none from rfl, orO_none_right] at hm
  rw [show initState.meter_model = none from rfl, orO_none_right] at hmm
  rw [show initState.strings = [] from rfl, List.nil_append] at hs
  rw [show initState.u16_values = [] from rfl, List.nil_append] at hu
  exact ⟨a1.trans ht, a3.trans hm, a4.trans hmm, a2.trans hs, a5.trans hu⟩

/-- C4: whenever the accumulated `u32_values` is non-empty, the output
maps `active_power_import` to its first element unchanged; whenever at
least nine were accumulated the last nine (`tailOf`) drive
`current_l1/l2/l3` as `tail[3..5] / 1000` and `voltage_l1/l2/l3` as
`tail[6..8] / 10`. -/
theorem parse_tlv_power_and_phases (p : List Nat) :
    (∀ v vs, u32sOf p = v :: vs → (parse_tlv p).active_power_import = some v) ∧
    (9 ≤ (u32sOf p).length →
      (parse_tlv p).current_l1 = some (((tailOf p).getD 3 0 : ℚ) / 1000) ∧
      (parse_tlv p).current_l2 = some (((tailOf p).getD 4 0 : ℚ) / 1000) ∧
      (parse_tlv p).current_l3 = some (((tailOf p).getD 5 0 : ℚ) / 1000) ∧
      (parse_tlv p).voltage_l1 = some (((tailOf p).getD 6 0 : ℚ) / 10) ∧
      (parse_tlv p).voltage_l2 = some (((tailOf p).getD 7 0 : ℚ) / 10) ∧
      (parse_tlv p).voltage_l3 = some (((tailOf p).getD 8 0 : ℚ) / 10)) := by
  obtain ⟨-, -, -, -, -, hp, -, htail⟩ := applyHeuristics_spec (parseLoop p initState)
  constructor
  · intro v vs h
    simp only [u32sOf] at h
    simp only [parse_tlv, hp, h, List.head?_cons]
  · intro h9
    simp only [u32sOf] at h9
    exact htail h9

/-- C4 witness: on `phasesPayload` (u32 values
`[500, 500, 500, 10, 20, 30, 2300, 2310, 2320]`) the power is 500 W,
the currents are `0.010, 0.020, 0.030` A and the voltages
`230.0, 231.0, 232.0` V. -/
theorem parse_tlv_power_and_phases_witness :
    (parse_tlv phasesPayload).active_power_import = some 500 ∧
    (parse_tlv phasesPayload).current_l1 = some ((1 : ℚ) / 100) ∧
    (parse_tlv phasesPayload).current_l2 = some ((2 : ℚ) / 100) ∧
    (parse_tlv phasesPayload).current_l3 = some ((3 : ℚ) / 100) ∧
    (parse_tlv phasesPayload).voltage_l1 = some (230 : ℚ) ∧
    (parse_tlv phasesPayload).voltage_l2 = some ((231 : ℚ)) ∧
    (parse_tlv phasesPayload).voltage_l3 = some ((232 : ℚ)) := by
  obtain ⟨h1, h2⟩ := parse_tlv_power_and_phases phasesPayload
  obtain ⟨c1, c2, c3, w1, w2, w3⟩ := h2 (by decide)
  refine ⟨h1 500 [500, 500, 10, 20, 30, 2300, 2310, 2320] (by decide), ?_, ?_, ?_, ?_, ?_, ?_⟩
  · rw [c1, show (tailOf phasesPayload).getD 3 0 = 10 from by decide]; norm_num
  · rw [c2, show (tailOf phasesPayload).getD 4 0 = 20 from by decide]; norm_num
  · rw [c3, show (tailOf phasesPayload).getD 5 0 = 30 from by decide]; norm_num
  · rw [w1, show (tailOf phasesPayload).getD 6 0 = 2300 from by decide]; norm_num
  · rw [w2, show (tailOf phasesPayload).getD 7 0 = 2310 from by decide]; norm_num
  · rw [w3, show (tailOf phasesPayload).getD 8 0 = 2320 from by decide]; norm_num

/-- C5: `active_import_total` is exactly the first accumulated u32 value
strictly above 100000, divided by 1000; when some value qualifies the
key holds that first qualifying value over 1000, and when every value
is at most 100000 the key is absent. -/
theorem parse_tlv_energy_total (p : List Nat) :
    ((parse_tlv p).active_import_total
        = ((u32sOf p).find? (fun v => decide (100000 < v))).map (fun v => (v : ℚ) / 1000)) ∧
    ((∃ v ∈ u32sOf p, 100000 < v) →
      ∃ v, (u32sOf p).find? (fun v => decide (100000 < v)) = some v ∧ 100000 < v ∧
        (parse_tlv p).active_import_total = some ((v : ℚ) / 1000)) ∧
    ((∀ v ∈ u32sOf p, v ≤ 100000) → (parse_tlv p).active_import_total = none) := by
  obtain ⟨-, -, -, -, -, -, htot, -⟩ := applyHeuristics_spec (parseLoop p initState)
  have base : (parse_tlv p).active_import_total
      = ((u32sOf p).find? (fun v => decide (100000 < v))).map (fun v => (v : ℚ) / 1000) := htot
  refine ⟨base, ?_, ?_⟩
  · intro hex
    have hsome : ((u32sOf p).find? (fun v => decide (100000 < v))).isSome := by
      rw [List.find?_isSome]
      obtain ⟨v, hv, hgt⟩ := hex
      exact ⟨v, hv, by simpa using hgt⟩
    obtain ⟨v, hv⟩ := Option.isSome_iff_exists.mp hsome
    refine ⟨v, hv, by simpa using List.find?_some hv, ?_⟩
    rw [base, hv]
    rfl
  · intro hall
    rw [base, List.find?_eq_none.mpr fun x hx => by simpa using hall x hx]
    rfl

/-- C5 witness: a payload whose single u32 value is 150000 yields
`active_import_total = 150.0`; one whose single u32 value is 100
leaves the key absent. -/
theorem parse_tlv_energy_total_witness :
    (parse_tlv [0x06, 0x00, 0x02, 0x49, 0xF0]).active_import_total = some (150 : ℚ) ∧
    (parse_tlv [0x06, 0x00, 0x00, 0x00, 0x64]).active_import_total = none := by
  constructor
  · rw [(parse_tlv_energy_total [0x06, 0x00, 0x02, 0x49, 0xF0]).1,
      show (u32sOf [0x06, 0x00, 0x02, 0x49, 0xF0]).find? (fun v => decide (100000 < v))
        = some 150000 from by decide]
    norm_num
  · exact (parse_tlv_energy_total [0x06, 0x00, 0x00, 0x00, 0x64]).2.2 (by decide)

/-- C9: when `u32_values` is non-empty and its first element exceeds
100000, that single element is reported twice — unchanged as
`active_power_import` and divided by 1000 as `active_import_total`;
the two mappings are not mutually exclusive. -/
theorem power_and_total_overlap (p : List Nat) (v : Nat) (vs : List Nat)
    (h : u32sOf p = v :: vs) (hv : 100000 < v) :
    (parse_tlv p).active_power_import = some v ∧
    (parse_tlv p).active_import_total = some ((v : ℚ) / 1000) := by
  obtain ⟨-, -, -, -, -, hp, htot, -⟩ := applyHeuristics_spec (parseLoop p initState)
  simp only [u32sOf] at h
  constructor
  · simp only [parse_tlv, hp, h, List.head?_cons]
  · simp only [parse_tlv, htot, h]
    rw [List.find?_cons_of_pos _ (by simpa using hv)]
    rfl

/-- C9 witness: a payload with the single u32 value 150000 reports both
`active_power_import = 150000` and `active_import_total = 150.0`. -/
theorem power_and_total_overlap_witness :
    (parse_tlv [0x06, 0x00, 0x02, 0x49, 0xF0]).active_power_import = some 150000 ∧
    (parse_tlv [0x06, 0x00, 0x02, 0x49, 0xF0]).active_import_total = some ((150000 : ℚ) / 1000) :=
  power_and_total_overlap [0x06, 0x00, 0x02, 0x49, 0xF0] 150000 [] (by decide) (by decide)
